import Mathlib

/-!
Verification of the `sectok` crate (src/lib.rs): RFC 8959 secret-token URIs.
Rust strings and byte slices are modelled as lists of byte values (`List Nat`,
each element < 256); a Rust `&str` is its UTF-8 byte sequence, so equality of
strings is equality of the byte lists. `Option<String>` becomes
`Option (List Nat)`.
-/

set_option maxRecDepth 8192

namespace Sectok

/-- Bytes of the crate constant `SCHEME` ("secret-token"). -/
def SCHEME : List Nat := [115, 101, 99, 114, 101, 116, 45, 116, 111, 107, 101, 110]

/-- Bytes of the crate constant `PREFIX` ("secret-token:"). -/
def PREFIX : List Nat := SCHEME ++ [58]

/-- Helper to write ASCII test inputs readably: the byte values of a string
whose characters are all ASCII. -/
def asciiBytes (s : String) : List Nat := s.toList.map Char.toNat

/-- ASCII alphanumeric bytes: the characters NOT in the `NON_ALPHANUMERIC`
ascii set of the percent-encoding crate (digits 0-9, letters A-Z and a-z). -/
def isAsciiAlphanumeric (b : Nat) : Bool :=
  (48 ≤ b && b ≤ 57) || (65 ≤ b && b ≤ 90) || (97 ≤ b && b ≤ 122)

/-- Byte values removed from `NON_ALPHANUMERIC` when building
`DISALLOWED_CHARACTERS` in src/lib.rs, in source order:
hyphen, dot, underscore, tilde, bang, dollar, ampersand, single quote,
open paren, close paren, asterisk, plus, comma, semicolon, equals, colon,
at sign. -/
def removedFromNonAlphanumeric : List Nat :=
  [45, 46, 95, 126, 33, 36, 38, 39, 40, 41, 42, 43, 44, 59, 61, 58, 64]

/-- Membership in the `DISALLOWED_CHARACTERS` ascii set of src/lib.rs:
an `AsciiSet` only ever contains ASCII bytes, and this one is
`NON_ALPHANUMERIC` minus the removed characters. -/
def DISALLOWED_CHARACTERS (b : Nat) : Bool :=
  b < 128 && !isAsciiAlphanumeric b && !(removedFromNonAlphanumeric.contains b)

/-- Whether `percent_encode` escapes a byte: every non-ASCII byte is always
percent-encoded, and an ASCII byte is escaped iff it is in the set. -/
def shouldPercentEncode (b : Nat) : Bool :=
  !(b < 128) || DISALLOWED_CHARACTERS b

/-- Uppercase hexadecimal digit byte for a nibble value, as emitted by the
percent-encoding crate (digits 0-9 then letters A-F). -/
def hexDigitUpper (v : Nat) : Nat :=
  if v < 10 then 48 + v else 55 + v

/-- Output of `percent_encode` for one input byte: the byte itself, or
a percent sign (byte 37) followed by two uppercase hex digits. -/
def percentEncodeByte (b : Nat) : List Nat :=
  if shouldPercentEncode b then [37, hexDigitUpper (b / 16), hexDigitUpper (b % 16)]
  else [b]

/-- Output of `percent_encode` on a byte sequence. -/
def percentEncodeBytes (s : List Nat) : List Nat :=
  (s.map percentEncodeByte).flatten

/-- Function `encode` of src/lib.rs: the prefix followed by the
percent-encoding of the UTF-8 bytes of the secret. -/
def encode (secret : List Nat) : List Nat :=
  PREFIX ++ percentEncodeBytes secret

/-- Hexadecimal digit bytes, per the class [a-fA-F0-9] used by both the
percent-decoder and the regex of src/lib.rs. -/
def isHexDigit (b : Nat) : Bool :=
  (48 ≤ b && b ≤ 57) || (65 ≤ b && b ≤ 70) || (97 ≤ b && b ≤ 102)

/-- Numeric value of a hexadecimal digit byte. -/
def hexVal (b : Nat) : Nat :=
  if b ≤ 57 then b - 48 else if b ≤ 70 then b - 55 else b - 87

/-- Lenient percent-decoding, as done by `percent_decode` of the
percent-encoding crate: a percent sign (byte 37) followed by two hex digits
becomes the byte they denote; a percent sign not followed by two hex digits
is passed through verbatim, as is every other byte. -/
def percentDecode : List Nat → List Nat
  | b :: h1 :: h2 :: rest =>
      if b == 37 && isHexDigit h1 && isHexDigit h2 then
        (16 * hexVal h1 + hexVal h2) :: percentDecode rest
      else
        b :: percentDecode (h1 :: h2 :: rest)
  | l => l

/-- Bytes matched by the character class of `ALLOWED_CHARACTERS_RE` in
src/lib.rs, in the order the regex lists them: letters, digits, then
dot, underscore, tilde, bang, dollar, ampersand, single quote, open paren,
close paren, asterisk, plus, comma, semicolon, equals, colon, at sign,
hyphen. -/
def reClassPunct : List Nat :=
  [46, 95, 126, 33, 36, 38, 39, 40, 41, 42, 43, 44, 59, 61, 58, 64, 45]

/-- Membership in the character class of `ALLOWED_CHARACTERS_RE`. -/
def isAllowedReChar (b : Nat) : Bool :=
  isAsciiAlphanumeric b || reClassPunct.contains b

/-- Matcher for the anchored regex of src/lib.rs, a full match of
( allowed-char | percent hex hex )* over the whole byte string. Because the
percent sign is not in the allowed character class the grammar is
deterministic, so this left-to-right scan recognizes exactly the language
of the regex. -/
def ALLOWED_CHARACTERS_RE : List Nat → Bool
  | [] => true
  | b :: rest =>
      if isAllowedReChar b then ALLOWED_CHARACTERS_RE rest
      else if b == 37 then
        match rest with
        | h1 :: h2 :: rest2 =>
            isHexDigit h1 && isHexDigit h2 && ALLOWED_CHARACTERS_RE rest2
        | _ => false
      else false

/-- Continuation byte of a UTF-8 sequence (0x80 to 0xBF). -/
def isUtf8Cont (b : Nat) : Bool := 128 ≤ b && b ≤ 191

/-- Strict UTF-8 validity, as checked by the Rust `decode_utf8` /
`str::from_utf8`: ASCII, or well-formed 2- to 4-byte sequences with the
standard restrictions on the first continuation byte (no overlong forms,
no surrogates, nothing beyond U+10FFFF). -/
def isValidUtf8 : List Nat → Bool
  | [] => true
  | b :: rest =>
      if b ≤ 127 then isValidUtf8 rest
      else if 194 ≤ b && b ≤ 223 then
        match rest with
        | c1 :: rest1 => isUtf8Cont c1 && isValidUtf8 rest1
        | _ => false
      else if 224 ≤ b && b ≤ 239 then
        match rest with
        | c1 :: c2 :: rest2 =>
            (if b == 224 then 160 ≤ c1 && c1 ≤ 191
             else if b == 237 then 128 ≤ c1 && c1 ≤ 159
             else isUtf8Cont c1) && isUtf8Cont c2 && isValidUtf8 rest2
        | _ => false
      else if 240 ≤ b && b ≤ 244 then
        match rest with
        | c1 :: c2 :: c3 :: rest3 =>
            (if b == 240 then 144 ≤ c1 && c1 ≤ 191
             else if b == 244 then 128 ≤ c1 && c1 ≤ 143
             else isUtf8Cont c1) && isUtf8Cont c2 && isUtf8Cont c3 && isValidUtf8 rest3
        | _ => false
      else false

/-- Function `decode` of src/lib.rs: require the prefix, strip it, reject an
empty remainder, percent-decode the remainder and require the result to be
valid UTF-8, and require the remainder (before decoding) to match the
anchored regex; on success return the decoded bytes. -/
def decode (uri : List Nat) : Option (List Nat) :=
  if uri.take PREFIX.length = PREFIX then
    let rest := uri.drop PREFIX.length
    if rest = [] then none
    else
      let decoded := percentDecode rest
      if isValidUtf8 decoded then
        if ALLOWED_CHARACTERS_RE rest then some decoded else none
      else none
  else none

/-- Rust slice expression `uri[n..]` on a byte slice: in-bounds slicing drops
the first `n` bytes, an out-of-bounds start index panics (modelled as
`Except.error`). -/
def sliceFrom (l : List Nat) (n : Nat) : Except Unit (List Nat) :=
  if n ≤ l.length then Except.ok (l.drop n) else Except.error ()

/-- Function `decode` of src/lib.rs with its one potentially panicking
operation, the slice `uri[PREFIX.len()..]`, made explicit: `Except.error`
is a panic, `Except.ok` is the regular return value. -/
def decodePanicking (uri : List Nat) : Except Unit (Option (List Nat)) :=
  if uri.take PREFIX.length = PREFIX then
    match sliceFrom uri PREFIX.length with
    | Except.error e => Except.error e
    | Except.ok rest =>
        Except.ok
          (if rest = [] then none
           else
             let decoded := percentDecode rest
             if isValidUtf8 decoded then
               if ALLOWED_CHARACTERS_RE rest then some decoded else none
             else none)
  else Except.ok none

/-- Modelled from the spec: function `is_valid` is described by the spec
(section 4.4) but absent from src/ (only `encode` and `decode` are there);
per the spec it delegates to `decode` and discards the payload. -/
def is_valid (uri : List Nat) : Bool := (decode uri).isSome

/-- Allow-list exactly as the claims word it: ASCII alphanumerics plus the
punctuation set listed in the spec (section 4.1). -/
def specAllowList : List Nat :=
  [45, 46, 95, 126, 33, 36, 38, 39, 40, 41, 42, 43, 44, 59, 61, 58, 64]

/-- Spec-side per-byte transform of the claims: allow-listed bytes verbatim,
every other byte as a percent sign and two uppercase hex digits. -/
def specEncodeByte (b : Nat) : List Nat :=
  if isAsciiAlphanumeric b || specAllowList.contains b then [b]
  else [37, hexDigitUpper (b / 16), hexDigitUpper (b % 16)]

/-- UTF-8 bytes of the Polish test string of the crate (latin capital L with
stroke, latin small o with acute, latin small d, latin small z with acute). -/
def lodzBytes : List Nat := [197, 129, 195, 179, 100, 197, 186]

/-! Helper lemmas. -/

/-- decode, with its let bindings inlined and the stripped remainder written
out, as a nest of ifs. -/
lemma decode_eq (uri : List Nat) :
    decode uri =
      if uri.take PREFIX.length = PREFIX then
        if uri.drop PREFIX.length = [] then none
        else
          if isValidUtf8 (percentDecode (uri.drop PREFIX.length)) then
            if ALLOWED_CHARACTERS_RE (uri.drop PREFIX.length) then
              some (percentDecode (uri.drop PREFIX.length))
            else none
          else none
      else none := rfl

/-- Bytes the encoder leaves verbatim are ASCII. -/
lemma lt_128_of_not_escaped {b : Nat} (h : shouldPercentEncode b = false) :
    b < 128 := by
  by_contra hb
  have hT : shouldPercentEncode b = true := by
    simp [shouldPercentEncode, hb]
  rw [hT] at h
  exact Bool.noConfusion h

/-- Every ASCII byte the encoder leaves verbatim is in the regex character
class and is not the percent sign. -/
lemma allowed_of_not_escaped :
    ∀ b : Nat, b < 128 → shouldPercentEncode b = false →
      (isAllowedReChar b = true ∧ (b == 37) = false) := by decide

/-- Uppercase hex digits emitted by the encoder are hex digits and decode to
the nibble they encode. -/
lemma hexDigitUpper_facts :
    ∀ v : Nat, v < 16 →
      (isHexDigit (hexDigitUpper v) = true ∧ hexVal (hexDigitUpper v) = v) := by decide

/-- Unfolding percentDecode at a non-percent head byte. -/
lemma percentDecode_cons_ne {b : Nat} (hb : (b == 37) = false) (t : List Nat) :
    percentDecode (b :: t) = b :: percentDecode t := by
  match t with
  | [] => simp [percentDecode]
  | [c] => simp [percentDecode]
  | h1 :: h2 :: r => simp [percentDecode, hb]

/-- Unfolding percentDecode at a well-formed escape. -/
lemma percentDecode_escape {h1 h2 : Nat} (hh1 : isHexDigit h1 = true)
    (hh2 : isHexDigit h2 = true) (t : List Nat) :
    percentDecode (37 :: h1 :: h2 :: t) = (16 * hexVal h1 + hexVal h2) :: percentDecode t := by
  simp [percentDecode, hh1, hh2]

/-- Scanning past an allowed character. -/
lemma RE_cons_allowed {b : Nat} (hb : isAllowedReChar b = true) (t : List Nat) :
    ALLOWED_CHARACTERS_RE (b :: t) = ALLOWED_CHARACTERS_RE t := by
  match t with
  | [] => simp [ALLOWED_CHARACTERS_RE, hb]
  | [c] => simp [ALLOWED_CHARACTERS_RE, hb]
  | h1 :: h2 :: r => simp [ALLOWED_CHARACTERS_RE, hb]

/-- Scanning past a well-formed escape. -/
lemma RE_escape {h1 h2 : Nat} (hh1 : isHexDigit h1 = true) (hh2 : isHexDigit h2 = true)
    (t : List Nat) :
    ALLOWED_CHARACTERS_RE (37 :: h1 :: h2 :: t) = ALLOWED_CHARACTERS_RE t := by
  simp [ALLOWED_CHARACTERS_RE, hh1, hh2, show isAllowedReChar 37 = false from rfl]

/-- percent-decoding inverts percent-encoding, byte sequence by byte
sequence. -/
lemma percentDecode_encodeBytes :
    ∀ s : List Nat, (∀ b ∈ s, b < 256) →
      percentDecode (percentEncodeBytes s) = s := by
  intro s
  induction s with
  | nil => intro _; rfl
  | cons b t ih =>
    intro hlt
    have hb : b < 256 := hlt b (List.mem_cons_self b t)
    have ht : ∀ x ∈ t, x < 256 := fun x hx => hlt x (List.mem_cons_of_mem _ hx)
    have hbody : percentEncodeBytes (b :: t) = percentEncodeByte b ++ percentEncodeBytes t := by
      simp [percentEncodeBytes]
    by_cases hesc : shouldPercentEncode b = true
    · have hdiv : b / 16 < 16 := by omega
      have hmod : b % 16 < 16 := by omega
      rw [hbody]
      simp only [percentEncodeByte, hesc, if_true, List.cons_append, List.nil_append]
      rw [percentDecode_escape (hexDigitUpper_facts _ hdiv).1 (hexDigitUpper_facts _ hmod).1,
        (hexDigitUpper_facts _ hdiv).2, (hexDigitUpper_facts _ hmod).2, ih ht,
        Nat.div_add_mod]
    · have hesc' : shouldPercentEncode b = false := by
        simpa using hesc
      have hfacts := allowed_of_not_escaped b (lt_128_of_not_escaped hesc') hesc'
      rw [hbody]
      simp only [percentEncodeByte, hesc', if_false, Bool.false_eq_true, List.cons_append,
        List.nil_append]
      rw [percentDecode_cons_ne hfacts.2, ih ht]

/-- The output of the encoder matches the regex of the decoder. -/
lemma re_match_encodeBytes :
    ∀ s : List Nat, (∀ b ∈ s, b < 256) →
      ALLOWED_CHARACTERS_RE (percentEncodeBytes s) = true := by
  intro s
  induction s with
  | nil => intro _; rfl
  | cons b t ih =>
    intro hlt
    have hb : b < 256 := hlt b (List.mem_cons_self b t)
    have ht : ∀ x ∈ t, x < 256 := fun x hx => hlt x (List.mem_cons_of_mem _ hx)
    have hbody : percentEncodeBytes (b :: t) = percentEncodeByte b ++ percentEncodeBytes t := by
      simp [percentEncodeBytes]
    by_cases hesc : shouldPercentEncode b = true
    · have hdiv : b / 16 < 16 := by omega
      have hmod : b % 16 < 16 := by omega
      rw [hbody]
      simp only [percentEncodeByte, hesc, if_true, List.cons_append, List.nil_append]
      rw [RE_escape (hexDigitUpper_facts _ hdiv).1 (hexDigitUpper_facts _ hmod).1]
      exact ih ht
    · have hesc' : shouldPercentEncode b = false := by
        simpa using hesc
      have hfacts := allowed_of_not_escaped b (lt_128_of_not_escaped hesc') hesc'
      rw [hbody]
      simp only [percentEncodeByte, hesc', if_false, Bool.false_eq_true, List.cons_append,
        List.nil_append]
      rw [RE_cons_allowed hfacts.1]
      exact ih ht

/-- The encoder emits at least one byte per input byte. -/
lemma percentEncodeBytes_ne_nil (b : Nat) (t : List Nat) :
    percentEncodeBytes (b :: t) ≠ [] := by
  by_cases h : shouldPercentEncode b = true <;>
    simp [percentEncodeBytes, percentEncodeByte, h]

/-- decode after the literal prefix. -/
lemma decode_append (body : List Nat) :
    decode (PREFIX ++ body) =
      if body = [] then none
      else
        if isValidUtf8 (percentDecode body) then
          if ALLOWED_CHARACTERS_RE body then some (percentDecode body) else none
        else none := by
  rw [decode_eq, List.take_left, List.drop_left, if_pos rfl]

/-! Claim theorems. -/

/-- C1, counterexample: the claim includes the empty secret, but encoding the
empty secret yields exactly the bare prefix, which decode rejects (empty
body), so the round trip does not return the empty secret. -/
theorem C1_counterexample_empty_secret :
    decode (encode ([] : List Nat)) ≠ some [] := by decide

/-- C1, amended: for every non-empty secret (a valid UTF-8 byte sequence),
decoding the encoding returns the original secret; for the empty secret the
encoding is the bare prefix, which decode rejects. -/
theorem C1_roundtrip (s : List Nat) (h256 : ∀ b ∈ s, b < 256)
    (hutf : isValidUtf8 s = true) (hne : s ≠ []) :
    decode (encode s) = some s := by
  obtain ⟨b, t, rfl⟩ := List.exists_cons_of_ne_nil hne
  rw [encode, decode_append, if_neg (percentEncodeBytes_ne_nil b t),
    percentDecode_encodeBytes _ h256, if_pos hutf,
    if_pos (re_match_encodeBytes _ h256)]

/-- C1, witness for the amended round trip at the secret "hello". -/
theorem C1_roundtrip_witness :
    decode (encode (asciiBytes "hello")) = some (asciiBytes "hello") :=
  C1_roundtrip (asciiBytes "hello") (by decide) (by decide) (by decide)

/-- C2: decode returns a value exactly when the input starts with the prefix,
the remaining body is non-empty, the body before percent-decoding fully
matches the anchored grammar, and the percent-decoded bytes are valid UTF-8;
the value returned is the percent-decoded body. Concretely,
decode of "secret-token:%a1" is none. -/
theorem C2_decode_characterization :
    (∀ uri v : List Nat,
        decode uri = some v ↔
          uri.take PREFIX.length = PREFIX ∧
          uri.drop PREFIX.length ≠ [] ∧
          ALLOWED_CHARACTERS_RE (uri.drop PREFIX.length) = true ∧
          isValidUtf8 (percentDecode (uri.drop PREFIX.length)) = true ∧
          v = percentDecode (uri.drop PREFIX.length)) ∧
    decode (asciiBytes "secret-token:%a1") = none := by
  refine ⟨fun uri v => ?_, by decide⟩
  rw [decode_eq]
  by_cases h1 : uri.take PREFIX.length = PREFIX
  · rw [if_pos h1]
    by_cases h2 : uri.drop PREFIX.length = []
    · rw [if_pos h2]
      simp [h1, h2]
    · rw [if_neg h2]
      by_cases h3 : isValidUtf8 (percentDecode (uri.drop PREFIX.length)) = true
      · rw [if_pos h3]
        by_cases h4 : ALLOWED_CHARACTERS_RE (uri.drop PREFIX.length) = true
        · rw [if_pos h4]
          constructor
          · intro hv
            injection hv with hv
            exact ⟨h1, h2, h4, h3, hv.symm⟩
          · rintro ⟨-, -, -, -, rfl⟩
            rfl
        · rw [if_neg h4]
          simp [h2, h4]
      · rw [if_neg h3]
        simp [h2, h3]
  · rw [if_neg h1]
    simp [h1]

/-- C3: is_valid returns true exactly when decode returns a value (it is
defined by delegating to decode and discarding the payload). -/
theorem C3_is_valid_iff (x : List Nat) :
    is_valid x = true ↔ ∃ v, decode x = some v := by
  rw [is_valid, Option.isSome_iff_exists]

/-- C4: encode is the prefix followed by the byte-by-byte transform of the
secret: allow-listed bytes verbatim, every other byte (every non-ASCII byte
included) as a percent sign plus two uppercase hex digits. -/
theorem C4_encode_structure (s : List Nat) (h256 : ∀ b ∈ s, b < 256) :
    encode s = PREFIX ++ (s.map specEncodeByte).flatten := by
  have perByte : ∀ b : Nat, b < 256 → percentEncodeByte b = specEncodeByte b := by decide
  rw [encode, percentEncodeBytes,
    List.map_congr_left (fun b hb => perByte b (h256 b hb))]

/-- C4, witness at a secret containing a space (an escaped byte) and letters
(verbatim bytes). -/
theorem C4_encode_structure_witness :
    encode (asciiBytes "hi there") =
      PREFIX ++ ((asciiBytes "hi there").map specEncodeByte).flatten :=
  C4_encode_structure (asciiBytes "hi there") (by decide)

/-- C5: any input that does not begin byte-for-byte with the lowercase prefix
"secret-token:" is rejected by decode. -/
theorem C5_prefix_rejection (uri : List Nat)
    (h : uri.take PREFIX.length ≠ PREFIX) :
    decode uri = none := by
  rw [decode_eq, if_neg h]

/-- C5, witness at the uppercase variant "SECRET-TOKEN:hello". -/
theorem C5_prefix_rejection_witness :
    decode (asciiBytes "SECRET-TOKEN:hello") = none :=
  C5_prefix_rejection (asciiBytes "SECRET-TOKEN:hello") (by decide)

/-- C6: decoding the string that is exactly the prefix returns no value. -/
theorem C6_empty_body_rejection :
    decode (asciiBytes "secret-token:") = none := by decide

/-- C7: for every ASCII byte value 1 to 126, encoding the single-byte secret
either leaves the byte unescaped, and then decoding the prefix followed by
that literal byte returns that secret, or escapes it as a percent sign plus
two hex digits, and then decoding the prefix followed by the raw literal
byte returns no value. -/
theorem C7_allowlist_boundary (b : Nat) (h1 : 1 ≤ b) (h2 : b ≤ 126) :
    (encode [b] = PREFIX ++ [b] ∧ decode (PREFIX ++ [b]) = some [b]) ∨
    (encode [b] = PREFIX ++ [37, hexDigitUpper (b / 16), hexDigitUpper (b % 16)] ∧
      decode (PREFIX ++ [b]) = none) := by
  have h : ∀ b : Nat, b < 127 → 1 ≤ b →
      (encode [b] = PREFIX ++ [b] ∧ decode (PREFIX ++ [b]) = some [b]) ∨
      (encode [b] = PREFIX ++ [37, hexDigitUpper (b / 16), hexDigitUpper (b % 16)] ∧
        decode (PREFIX ++ [b]) = none) := by decide
  exact h b (by omega) h1

/-- C7, witness at byte 97 (letter a, unescaped) — the theorem applied at a
concrete allow-listed byte. -/
theorem C7_allowlist_boundary_witness :
    (encode [97] = PREFIX ++ [97] ∧ decode (PREFIX ++ [97]) = some [97]) ∨
    (encode [97] = PREFIX ++ [37, hexDigitUpper (97 / 16), hexDigitUpper (97 % 16)] ∧
      decode (PREFIX ++ [97]) = none) :=
  C7_allowlist_boundary 97 (by decide) (by decide)

/-- C8: the concrete vectors of the spec: the Polish string, the UUID with an
escaped space, and "hello". -/
theorem C8_concrete_vectors :
    encode lodzBytes = asciiBytes "secret-token:%C5%81%C3%B3d%C5%BA" ∧
    decode (asciiBytes "secret-token:%C5%81%C3%B3d%C5%BA") = some lodzBytes ∧
    decode (asciiBytes "secret-token:E92FB7EB-D882-47A4-A265-A0B6135DC842%20foo") =
      some (asciiBytes "E92FB7EB-D882-47A4-A265-A0B6135DC842 foo") ∧
    encode (asciiBytes "hello") = asciiBytes "secret-token:hello" ∧
    decode (asciiBytes "secret-token:hello") = some (asciiBytes "hello") :=
  ⟨by decide, by decide, by decide, by decide, by decide⟩

/-- C9: totality. decode, with its one potentially panicking operation (the
slice after the prefix check) made explicit, never reaches the panic and
agrees with the total model; encode is a total function whose output always
begins with the prefix. -/
theorem C9_totality :
    (∀ uri : List Nat, decodePanicking uri = Except.ok (decode uri)) ∧
    (∀ s : List Nat, (encode s).take PREFIX.length = PREFIX) := by
  constructor
  · intro uri
    by_cases h : uri.take PREFIX.length = PREFIX
    · have hlen : PREFIX.length ≤ uri.length := by
        have hl := congrArg List.length h
        rw [List.length_take] at hl
        omega
      rw [decodePanicking, decode_eq, if_pos h, if_pos h, sliceFrom, if_pos hlen]
    · rw [decodePanicking, decode_eq, if_neg h, if_neg h]
  · intro s
    rw [encode]
    exact List.take_left PREFIX (percentEncodeBytes s)

/-- C10: decode accepts non-canonical encodings: an escaped allow-listed
character (escape of letter h) and lowercase hex digits are accepted, so two
distinct URIs decode to the same secret and decode is not injective on its
domain of success. -/
theorem C10_non_canonical :
    decode (asciiBytes "secret-token:%68ello") = some (asciiBytes "hello") ∧
    decode (asciiBytes "secret-token:hello") = some (asciiBytes "hello") ∧
    asciiBytes "secret-token:%68ello" ≠ asciiBytes "secret-token:hello" ∧
    decode (asciiBytes "secret-token:%c5%81%c3%b3d%c5%ba") = some lodzBytes ∧
    ∃ u1 u2 : List Nat, u1 ≠ u2 ∧ (decode u1).isSome = true ∧ decode u1 = decode u2 :=
  ⟨by decide, by decide, by decide, by decide,
    asciiBytes "secret-token:%68ello", asciiBytes "secret-token:hello",
    by decide, by decide, by decide⟩

end Sectok
